import Mathlib

/-!
Shallow embedding of `flow/envs/loop/wave_attenuation.py`.

The file defines `WaveAttenuationEnv` and its subclasses.  Each method reads a
per-step snapshot of the external simulator (vehicle ids, speeds, positions,
headways, leader/follower relations) and produces observations, rewards or
simulator commands.  We embed that snapshot as an explicit state record and
each method as a pure function of it.  Real-valued quantities from the code
(numpy floats) are embedded as rationals, except where the code genuinely
computes an irrational quantity (`np.std`, which takes a square root), where
we use the reals.
-/

namespace WaveAttenuation

/-- Per-step snapshot of the simulator's vehicle registry, as consumed by the
methods of this file (`get_ids`, `get_rl_ids`, `sorted_ids`, `get_speed`,
`get_x_by_id`, `get_headway`, `get_leader`, `get_follower`, `get_length`). -/
structure VehState where
  ids : List String
  rl_ids : List String
  sorted_ids : List String
  speed : String → ℚ
  absPos : String → ℚ
  headway : String → ℚ
  vehLength : String → ℚ
  leader : String → Option String
  follower : String → Option String

/-- The scenario object fields read by this file (`scenario.max_speed`,
`scenario.length`). -/
structure Scenario where
  max_speed : ℚ
  length : ℚ

/-- The entries of `env_params.additional_params` required by
`ADDITIONAL_ENV_PARAMS`: `max_accel`, `max_decel` and the two-element
`ring_length` bounds list. -/
structure EnvAdditionalParams where
  max_accel : ℚ
  max_decel : ℚ
  ring_length : ℤ × ℤ

/-- A `gym.spaces.box.Box` as used here: scalar bounds and a shape. -/
structure Box where
  low : ℚ
  high : ℚ
  shape : List ℕ
deriving Repr, DecidableEq

/-- The keys of `ADDITIONAL_ENV_PARAMS`, in insertion order. -/
def ADDITIONAL_ENV_PARAMS_keys : List String :=
  ["max_accel", "max_decel", "ring_length"]

/-- The validation loop of `WaveAttenuationEnv.__init__`: iterate over the
required keys and raise `KeyError` at the first one missing from
`env_params.additional_params` (modelled as the list of present keys). -/
def checkParams : List String → List String → Except String Unit
  | [], _ => .ok ()
  | p :: ps, params =>
      if p ∈ params then checkParams ps params
      else .error ("Environment parameter \"" ++ p ++ "\" not supplied")

/-- The eager validation performed by `WaveAttenuationEnv.__init__` before
delegating to the base class. -/
def waveAttenuationInitCheck (params : List String) : Except String Unit :=
  checkParams ADDITIONAL_ENV_PARAMS_keys params

/-- `WaveAttenuationEnv.action_space`: a `Box` with lower bound
`-np.abs(max_decel)`, upper bound `max_accel` and shape
`(num_rl_vehicles,)`. -/
def action_space (p : EnvAdditionalParams) (num_rl_vehicles : ℕ) : Box :=
  { low := -|p.max_decel|, high := p.max_accel, shape := [num_rl_vehicles] }

/-- `np.mean` on a list of rationals (the empty case never arises in the
claims; Lean's `0 / 0 = 0` stands in for numpy's `nan`). -/
def npMean (l : List ℚ) : ℚ := l.sum / l.length

/-- `WaveAttenuationEnv.compute_reward`.  `rl_actions = none` models the
Python `None` passed during warmup; `fail` is `kwargs["fail"]`. -/
def compute_reward (s : VehState) (rl_actions : Option (List ℚ)) (fail : Bool) : ℚ :=
  match rl_actions with
  | none => 0
  | some acts =>
      let vel : List ℚ := s.ids.map s.speed
      if vel.any (fun v => decide (v < -100)) || fail then 0
      else
        let eta_2 : ℚ := 4
        let reward := eta_2 * npMean vel / 20
        let eta : ℚ := 8
        let accel_threshold : ℚ := 0
        let meanAbs := npMean (acts.map (fun a => |a|))
        if accel_threshold < meanAbs then
          reward + eta * (accel_threshold - meanAbs)
        else reward

/-- `WaveAttenuationEnv.get_state`: per vehicle (in `sorted_ids` order) the
pair of normalized speed and normalized absolute position. -/
def get_state (s : VehState) (scen : Scenario) : List (ℚ × ℚ) :=
  s.sorted_ids.map fun veh_id =>
    (s.speed veh_id / scen.max_speed, s.absPos veh_id / scen.length)

/-- `WaveAttenuationMLPGlobalEnv.get_state`: the same two scalars per vehicle
(over `get_ids`), flattened into a single vector. -/
def get_state_MLPGlobal (s : VehState) (scen : Scenario) : List ℚ :=
  (s.ids.map fun veh_id =>
    [s.speed veh_id / scen.max_speed, s.absPos veh_id / scen.length]).flatten

/-- Python's `x or y` on an optional string: `None` and `""` are falsy. -/
def pyOrStr (o : Option String) (d : String) : String :=
  match o with
  | none => d
  | some s => if s = "" then d else s

/-- `WaveAttenuationPOEnv.get_state`.  `get_rl_ids()[0]` raises on an empty
rl-vehicle list, modelled by `none`.  The normalizers are the hardcoded
`max_speed = 15` and `ring_length[1]`. -/
def get_state_PO (s : VehState) (p : EnvAdditionalParams) : Option (List ℚ) :=
  match s.rl_ids with
  | [] => none
  | rl_id :: _ =>
      let lead_id := pyOrStr (s.leader rl_id) rl_id
      let max_speed : ℚ := 15
      let max_length : ℚ := (p.ring_length.2 : ℚ)
      some [s.speed rl_id / max_speed,
            (s.speed lead_id - s.speed rl_id) / max_speed,
            s.headway rl_id / max_length]

/-- Models the contract of Python's `random.randint(a, b)`: an integer drawn
inclusively between `a` and `b`; the draw is made explicit through `seed`. -/
def randint (a b : ℤ) (seed : ℕ) : ℤ := a + (seed : ℤ) % (b - a + 1)

/-- The `length` entry of the `additional_net_params` dict built by
`WaveAttenuationEnv.reset`: `random.randint(ring_length[0], ring_length[1])`. -/
def resetNetLength (p : EnvAdditionalParams) (seed : ℕ) : ℤ :=
  randint p.ring_length.1 p.ring_length.2 seed

/-- The full `additional_net_params` dict of `reset`:
`(length, lanes, speed_limit, resolution)`. -/
def resetAdditionalNetParams (p : EnvAdditionalParams) (seed : ℕ) : ℤ × ℕ × ℕ × ℕ :=
  (resetNetLength p seed, 1, 30, 40)

/-- `np.mean` on a list of reals (used by `compute_reward` of the CNN
variants, whose `np.std` is irrational in general). -/
noncomputable def npMeanR (l : List ℝ) : ℝ := l.sum / l.length

/-- `np.std`: the square root of the mean squared deviation from the mean. -/
noncomputable def npStdR (l : List ℝ) : ℝ :=
  Real.sqrt (npMeanR (l.map fun x => (x - npMeanR l) ^ 2))

/-- `WaveAttenuationCNNEnv.compute_reward`: it reads only the vehicle speeds
and `scenario.max_speed`, ignoring `rl_actions` and every `kwargs` entry
(in particular the `fail` flag). -/
noncomputable def compute_reward_CNN (s : VehState) (scen : Scenario)
    (_rl_actions : Option (List ℚ)) (_fail : Bool) : ℝ :=
  let speed : List ℝ := s.ids.map fun veh_id => (s.speed veh_id : ℝ)
  (0.6 * npMeanR speed + 0.4 * npStdR speed) / (scen.max_speed : ℝ)

/-- Python's substring test `needle in hay` on strings. -/
def containsSub (hay needle : String) : Bool :=
  hay.toList.tails.any fun t => needle.toList.isPrefixOf t

/-- `np.clip(x, lo, hi)` on scalars. -/
def npClip (x lo hi : ℚ) : ℚ := min (max x lo) hi

/-- `WaveAttenuationCNNIDMEnv.apply_acceleration`: the list of
`slowDown(vid, next_vel)` commands issued to the simulator.  `defaultAcc i`
stands for `self.default_controller[i].get_accel(self)` (the external
`IDMController`); entries of `acc` that are `none` model Python `None` and
issue no command. -/
def apply_acceleration_CNNIDM (speed : String → ℚ) (defaultAcc : ℕ → ℚ)
    (simStep : ℚ) (veh_ids : List String) (acc : List (Option ℚ)) :
    List (String × ℚ) :=
  ((veh_ids.zip acc).enum).filterMap fun x =>
    match x with
    | (i, vid, some a) =>
        let a' := if containsSub vid "rl" then
            0.5 * npClip a (-5) 3 + 0.5 * defaultAcc i
          else a
        some (vid, max (speed vid + a' * simStep) 0)
    | (_, _, none) => none

/-- `WaveAttenuationCNNPIEnv.apply_acceleration`: as above but the fallback
(`PISaturation`) acceleration is added to the policy action. -/
def apply_acceleration_CNNPI (speed : String → ℚ) (defaultAcc : ℕ → ℚ)
    (simStep : ℚ) (veh_ids : List String) (acc : List (Option ℚ)) :
    List (String × ℚ) :=
  ((veh_ids.zip acc).enum).filterMap fun x =>
    match x with
    | (i, vid, some a) =>
        let a' := if containsSub vid "rl" then a + defaultAcc i else a
        some (vid, max (speed vid + a' * simStep) 0)
    | (_, _, none) => none

/-! ### `WaveAttenuationMLPLocalEnv` bookkeeping

`additional_command` mutates two containers: the deque `rl_queue` and the
list `rl_veh`.  The Python code iterates over a *copy* of the deque while
removing from it (safe), but iterates over `rl_veh` itself while removing
from it (the index silently skips the element after each removal).  Both
behaviours are embedded exactly. -/

/-- Mutable state of `WaveAttenuationMLPLocalEnv` as set up by `__init__`
(`num_rl = 1`, empty queue and lists). -/
structure LocalEnvState where
  num_rl : ℕ
  rl_queue : List String
  rl_veh : List String
  leader : List String
  follower : List String
deriving Repr, DecidableEq

/-- First loop of `additional_command`: append each present rl id not already
in `rl_queue + rl_veh` to the queue (membership is tested against the queue
as it grows). -/
def enqueueNew (rl_ids : List String) (queue rl_veh : List String) : List String :=
  rl_ids.foldl (fun q veh_id => if veh_id ∈ q ++ rl_veh then q else q ++ [veh_id]) queue

/-- Second loop: `for veh_id in list(self.rl_queue): ... rl_queue.remove(veh_id)`.
Iteration is over a copy of the queue; each absent id has its first
occurrence removed from the live queue. -/
def removeAbsentQueue (rl_ids : List String) (queue : List String) : List String :=
  queue.foldl (fun q veh_id => if veh_id ∈ rl_ids then q else q.erase veh_id) queue

/-- Third loop: `for veh_id in self.rl_veh: ... rl_veh.remove(veh_id)`.
Iteration is over the live list: Python's list iterator advances its index
after each step even when the current element was just removed, so the
element that slides into the freed slot is skipped. -/
def removeAbsentLiveGo (rl_ids : List String) (l : List String) (i : ℕ) : List String :=
  if h : i < l.length then
    let veh_id := l.get ⟨i, h⟩
    if veh_id ∈ rl_ids then removeAbsentLiveGo rl_ids l (i + 1)
    else removeAbsentLiveGo rl_ids (l.erase veh_id) (i + 1)
  else l
termination_by l.length - i
decreasing_by
  · omega
  · simp only [List.length_erase]
    split <;> omega

/-- Entry point of the third loop. -/
def removeAbsentLive (rl_ids : List String) (l : List String) : List String :=
  removeAbsentLiveGo rl_ids l 0

/-- Final loop: while the queue is nonempty and `rl_veh` has a free slot,
pop the queue's front into `rl_veh`. -/
def fillRlVeh (num_rl : ℕ) : List String → List String → List String × List String
  | [], rl_veh => ([], rl_veh)
  | rl_id :: rest, rl_veh =>
      if rl_veh.length < num_rl then fillRlVeh num_rl rest (rl_veh ++ [rl_id])
      else (rl_id :: rest, rl_veh)

/-- `WaveAttenuationMLPLocalEnv.additional_command` (its effect on the
bookkeeping state; the trailing `set_observed` calls touch only the
simulator). -/
def additional_command_MLPLocal (rl_ids : List String) (s : LocalEnvState) :
    LocalEnvState :=
  let queue1 := enqueueNew rl_ids s.rl_queue s.rl_veh
  let queue2 := removeAbsentQueue rl_ids queue1
  let veh2 := removeAbsentLive rl_ids s.rl_veh
  let filled := fillRlVeh s.num_rl queue2 veh2
  { s with rl_queue := filled.1, rl_veh := filled.2 }

/-! ### Example states used by witnesses and counterexamples -/

/-- A one-vehicle snapshot whose only vehicle is the rl vehicle `rl_0`,
which has no visible leader. -/
def exNoLeader : VehState :=
  { ids := ["rl_0"], rl_ids := ["rl_0"], sorted_ids := ["rl_0"],
    speed := fun _ => 6, absPos := fun _ => 0, headway := fun _ => 20,
    vehLength := fun _ => 5, leader := fun _ => none, follower := fun _ => none }

/-- Default additional parameters, as in `ADDITIONAL_ENV_PARAMS`. -/
def exParams : EnvAdditionalParams :=
  { max_accel := 3, max_decel := 5, ring_length := (260, 260) }

/-! ### Theorems -/

/-- C5: `WaveAttenuationEnv.__init__` (and hence every subclass constructor,
all of which delegate to it) passes its validation exactly when the keys
`max_accel`, `max_decel` and `ring_length` are all present in
`env_params.additional_params`, and raises `KeyError` exactly when at least
one of them is absent. -/
theorem init_validation_iff (params : List String) :
    (waveAttenuationInitCheck params = .ok () ↔
      ("max_accel" ∈ params ∧ "max_decel" ∈ params ∧ "ring_length" ∈ params)) ∧
    ((∃ e, waveAttenuationInitCheck params = .error e) ↔
      ¬ ("max_accel" ∈ params ∧ "max_decel" ∈ params ∧ "ring_length" ∈ params)) := by
  have hmain : waveAttenuationInitCheck params = .ok () ↔
      ("max_accel" ∈ params ∧ "max_decel" ∈ params ∧ "ring_length" ∈ params) := by
    by_cases h1 : "max_accel" ∈ params <;>
    by_cases h2 : "max_decel" ∈ params <;>
    by_cases h3 : "ring_length" ∈ params <;>
      simp [waveAttenuationInitCheck, ADDITIONAL_ENV_PARAMS_keys, checkParams, h1, h2, h3]
  refine ⟨hmain, ?_⟩
  constructor
  · rintro ⟨e, he⟩ hall
    rw [hmain.2 hall] at he
    exact Except.noConfusion he
  · intro hnot
    cases hcheck : waveAttenuationInitCheck params with
    | error e => exact ⟨e, rfl⟩
    | ok u =>
        cases u
        exact absurd (hmain.1 hcheck) hnot

/-- C6: the ring length drawn by `WaveAttenuationEnv.reset` is an integer
lying inclusively between `ring_length[0]` and `ring_length[1]` (the result
type `ℤ` embeds `random.randint`'s integrality). -/
theorem reset_ring_length_in_range (p : EnvAdditionalParams) (seed : ℕ)
    (h : p.ring_length.1 ≤ p.ring_length.2) :
    p.ring_length.1 ≤ (resetAdditionalNetParams p seed).1 ∧
    (resetAdditionalNetParams p seed).1 ≤ p.ring_length.2 := by
  have hpos : (0 : ℤ) < p.ring_length.2 - p.ring_length.1 + 1 := by omega
  have h0 : 0 ≤ (seed : ℤ) % (p.ring_length.2 - p.ring_length.1 + 1) :=
    Int.emod_nonneg _ (by omega)
  have h1 : (seed : ℤ) % (p.ring_length.2 - p.ring_length.1 + 1) <
      p.ring_length.2 - p.ring_length.1 + 1 := Int.emod_lt_of_pos _ hpos
  simp only [resetAdditionalNetParams, resetNetLength, randint]
  omega

/-- Witness for C6 at the default parameters. -/
theorem reset_ring_length_in_range_witness :
    (260 : ℤ) ≤ (resetAdditionalNetParams exParams 7).1 ∧
    (resetAdditionalNetParams exParams 7).1 ≤ 260 :=
  reset_ring_length_in_range exParams 7 (by decide)

/-- C7: `WaveAttenuationEnv.action_space` is a box of dimension
`num_rl_vehicles` with per-component lower bound `-|max_decel|` and upper
bound `max_accel`. -/
theorem action_space_spec (p : EnvAdditionalParams) (num_rl_vehicles : ℕ) :
    (action_space p num_rl_vehicles).shape = [num_rl_vehicles] ∧
    (action_space p num_rl_vehicles).low = -|p.max_decel| ∧
    (action_space p num_rl_vehicles).high = p.max_accel :=
  ⟨rfl, rfl, rfl⟩

/-- C8: `WaveAttenuationEnv.compute_reward` returns `0` during warmup
(`rl_actions is None`), whatever the speeds and the failure flag. -/
theorem compute_reward_warmup_zero (s : VehState) (fail : Bool) :
    compute_reward s none fail = 0 := rfl

/-- C9: in `WaveAttenuationPOEnv.get_state`, when the ego rl vehicle has no
leader (`get_leader` returns `None` or `""`), the ego vehicle is substituted
for its leader and the relative-speed component of the observation is
exactly `0`. -/
theorem get_state_PO_no_leader (s : VehState) (p : EnvAdditionalParams)
    (rl : String) (hrl : s.rl_ids.get? 0 = some rl)
    (hld : s.leader rl = none ∨ s.leader rl = some "") :
    get_state_PO s p =
      some [s.speed rl / 15, 0, s.headway rl / (p.ring_length.2 : ℚ)] := by
  cases hids : s.rl_ids with
  | nil => rw [hids] at hrl; exact Option.noConfusion hrl
  | cons a rest =>
      rw [hids] at hrl
      simp only [List.get?] at hrl
      cases hrl
      rcases hld with hl | hl <;>
        simp [get_state_PO, hids, pyOrStr, hl, sub_self, zero_div]

/-- Witness for C9 on a concrete leaderless snapshot. -/
theorem get_state_PO_no_leader_witness :
    get_state_PO exNoLeader exParams = some [6 / 15, 0, 20 / 260] :=
  get_state_PO_no_leader exNoLeader exParams "rl_0" rfl (Or.inl rfl)

/-- A snapshot with one human vehicle, used to exercise the reward
short-circuit. -/
def exHumanOnly : VehState :=
  { ids := ["idm_0"], rl_ids := [], sorted_ids := ["idm_0"],
    speed := fun _ => 5, absPos := fun _ => 10, headway := fun _ => 20,
    vehLength := fun _ => 5, leader := fun _ => none, follower := fun _ => none }

/-- C1 (amended): in the variants inheriting
`WaveAttenuationEnv.compute_reward` (all but the CNN family), the reward is
exactly `0` whenever the simulator failure flag is set or some reported
velocity is below `-100`; being a total function, the embedding also
records that no exception escapes. -/
theorem compute_reward_zero_on_failure (s : VehState)
    (rl_actions : Option (List ℚ)) (fail : Bool)
    (h : fail = true ∨ ∃ v ∈ s.ids, s.speed v < -100) :
    compute_reward s rl_actions fail = 0 := by
  cases rl_actions with
  | none => rfl
  | some acts =>
      have hcond :
          (((s.ids.map s.speed).any fun v => decide (v < -100)) || fail) = true := by
        rcases h with h | ⟨v, hv, hlt⟩
        · simp [h]
        · refine Bool.or_eq_true_iff.2 (Or.inl ?_)
          simp only [List.any_eq_true, List.mem_map]
          exact ⟨s.speed v, ⟨v, hv, rfl⟩, by simpa using hlt⟩
      simp [compute_reward, hcond]

/-- Witness for C1 (amended): failure flag set, ordinary speeds. -/
theorem compute_reward_zero_on_failure_witness :
    compute_reward exHumanOnly (some [1]) true = 0 :=
  compute_reward_zero_on_failure exHumanOnly (some [1]) true (Or.inl rfl)

/-- A one-rl-vehicle snapshot with a plain positive speed. -/
def exCNNState : VehState :=
  { ids := ["rl_0"], rl_ids := ["rl_0"], sorted_ids := ["rl_0"],
    speed := fun _ => 10, absPos := fun _ => 0, headway := fun _ => 20,
    vehLength := fun _ => 5, leader := fun _ => none, follower := fun _ => none }

/-- The scenario built by `reset` (speed limit 30, default ring length). -/
def exCNNScenario : Scenario := { max_speed := 30, length := 260 }

/-- C1 counterexample: `WaveAttenuationCNNEnv.compute_reward` (inherited by
the IDM and PI variants) ignores `kwargs["fail"]`: with the failure flag set
and one vehicle at speed 10 below limit 30, it returns `1/5`, not `0`. -/
theorem compute_reward_CNN_ignores_fail :
    compute_reward_CNN exCNNState exCNNScenario (some [0]) true = 1 / 5 ∧
    (1 / 5 : ℝ) ≠ 0 := by
  constructor
  · have hmean : npMeanR [(10 : ℝ)] = 10 := by
      simp [npMeanR]
    have hstd : npStdR [(10 : ℝ)] = 0 := by
      simp [npStdR, hmean, npMeanR]
    show (0.6 * npMeanR [(10 : ℝ)] + 0.4 * npStdR [(10 : ℝ)]) / ((30 : ℚ) : ℝ) = 1 / 5
    rw [hmean, hstd]
    norm_num
  · norm_num

/-- A two-vehicle snapshot where the rl vehicle is faster than its leader;
speeds and positions respect the scenario bounds. -/
def exPOState : VehState :=
  { ids := ["rl_0", "human_0"], rl_ids := ["rl_0"],
    sorted_ids := ["rl_0", "human_0"],
    speed := fun v => if v = "rl_0" then 5 else 0,
    absPos := fun _ => 0, headway := fun _ => 20,
    vehLength := fun _ => 5,
    leader := fun _ => some "human_0", follower := fun _ => none }

/-- The scenario for the PO counterexample. -/
def exPOScenario : Scenario := { max_speed := 30, length := 260 }

/-- C2 counterexample: `WaveAttenuationPOEnv.get_state` can leave `[0, 1]`
even under the claim's speed and position bounds: with the ego at speed 5
and its leader at speed 0, the relative-speed component is `-1/3 < 0`. -/
theorem get_state_PO_not_normalized :
    (∀ v ∈ exPOState.ids,
      (0 ≤ exPOState.speed v ∧ exPOState.speed v ≤ exPOScenario.max_speed) ∧
      (0 ≤ exPOState.absPos v ∧ exPOState.absPos v ≤ exPOScenario.length)) ∧
    get_state_PO exPOState exParams = some [1 / 3, -(1 / 3), 1 / 13] ∧
    ¬ (0 ≤ (-(1 / 3) : ℚ)) := by
  have hne1 : ("human_0" : String) ≠ "rl_0" := by decide
  have hne2 : ("human_0" : String) ≠ "" := by decide
  refine ⟨?_, ?_, by norm_num⟩
  · intro v hv
    fin_cases hv <;> norm_num [exPOState, exPOScenario, hne1]
  · norm_num [get_state_PO, exPOState, exParams, pyOrStr, hne1, hne2]

/-- C2 (amended): in `WaveAttenuationEnv.get_state` and
`WaveAttenuationMLPGlobalEnv.get_state`, with a positive scenario max speed
and length, every observation component lies in `[0, 1]` whenever each
vehicle's speed lies in `[0, max_speed]` and each position in
`[0, length]`. -/
theorem get_state_components_normalized (s : VehState) (scen : Scenario)
    (hspd : 0 < scen.max_speed) (hlen : 0 < scen.length)
    (hb : ∀ v ∈ s.sorted_ids ++ s.ids,
      (0 ≤ s.speed v ∧ s.speed v ≤ scen.max_speed) ∧
      (0 ≤ s.absPos v ∧ s.absPos v ≤ scen.length)) :
    (∀ pr ∈ get_state s scen, (0 ≤ pr.1 ∧ pr.1 ≤ 1) ∧ (0 ≤ pr.2 ∧ pr.2 ≤ 1)) ∧
    (∀ x ∈ get_state_MLPGlobal s scen, 0 ≤ x ∧ x ≤ 1) := by
  constructor
  · intro pr hpr
    simp only [get_state, List.mem_map] at hpr
    obtain ⟨v, hv, heq⟩ := hpr
    obtain ⟨⟨hs0, hs1⟩, hp0, hp1⟩ :=
      hb v (List.mem_append.2 (Or.inl hv))
    rw [← heq]
    exact ⟨⟨div_nonneg hs0 hspd.le, (div_le_one hspd).2 hs1⟩,
           ⟨div_nonneg hp0 hlen.le, (div_le_one hlen).2 hp1⟩⟩
  · intro x hx
    simp only [get_state_MLPGlobal, List.mem_flatten] at hx
    obtain ⟨l, hl, hxl⟩ := hx
    simp only [List.mem_map] at hl
    obtain ⟨v, hv, heq⟩ := hl
    obtain ⟨⟨hs0, hs1⟩, hp0, hp1⟩ :=
      hb v (List.mem_append.2 (Or.inr hv))
    rw [← heq] at hxl
    rcases List.mem_cons.1 hxl with h | h
    · subst h
      exact ⟨div_nonneg hs0 hspd.le, (div_le_one hspd).2 hs1⟩
    · rcases List.mem_cons.1 h with h2 | h2
      · subst h2
        exact ⟨div_nonneg hp0 hlen.le, (div_le_one hlen).2 hp1⟩
      · exact absurd h2 (List.not_mem_nil x)

/-- Witness for C2 (amended) on a concrete bounded snapshot. -/
theorem get_state_components_normalized_witness :
    (∀ pr ∈ get_state exCNNState exCNNScenario,
      (0 ≤ pr.1 ∧ pr.1 ≤ 1) ∧ (0 ≤ pr.2 ∧ pr.2 ≤ 1)) ∧
    (∀ x ∈ get_state_MLPGlobal exCNNState exCNNScenario, 0 ≤ x ∧ x ≤ 1) :=
  get_state_components_normalized exCNNState exCNNScenario (by norm_num [exCNNScenario])
    (by norm_num [exCNNScenario])
    (by intro v hv; fin_cases hv <;> norm_num [exCNNState, exCNNScenario])

/-- C4: both fallback variants blend the fallback controller's output into
the acceleration of every rl vehicle (id containing `"rl"`) whose action is
not `None` - `0.5 * clip(action, -5, 3) + 0.5 * IDM` for the IDM variant and
`action + PI` for the PI variant - while non-rl vehicles get the raw policy
action.  Stated through the `slowDown` command each variant issues. -/
theorem apply_acceleration_blend
    (speed : String → ℚ) (defaultAcc : ℕ → ℚ) (simStep : ℚ)
    (veh_ids : List String) (acc : List (Option ℚ)) (i : ℕ) (vid : String) (a : ℚ)
    (hget : (veh_ids.zip acc)[i]? = some (vid, some a)) :
    (containsSub vid "rl" = true →
      (vid, max (speed vid + (0.5 * npClip a (-5) 3 + 0.5 * defaultAcc i) * simStep) 0)
        ∈ apply_acceleration_CNNIDM speed defaultAcc simStep veh_ids acc ∧
      (vid, max (speed vid + (a + defaultAcc i) * simStep) 0)
        ∈ apply_acceleration_CNNPI speed defaultAcc simStep veh_ids acc) ∧
    (containsSub vid "rl" = false →
      (vid, max (speed vid + a * simStep) 0)
        ∈ apply_acceleration_CNNIDM speed defaultAcc simStep veh_ids acc ∧
      (vid, max (speed vid + a * simStep) 0)
        ∈ apply_acceleration_CNNPI speed defaultAcc simStep veh_ids acc) := by
  have hmem : (i, (vid, some a)) ∈ (veh_ids.zip acc).enum :=
    List.mk_mem_enum_iff_getElem?.2 hget
  constructor
  · intro hrl
    refine ⟨List.mem_filterMap.2 ⟨(i, (vid, some a)), hmem, ?_⟩,
            List.mem_filterMap.2 ⟨(i, (vid, some a)), hmem, ?_⟩⟩ <;>
      simp [apply_acceleration_CNNIDM, apply_acceleration_CNNPI, hrl]
  · intro hrl
    refine ⟨List.mem_filterMap.2 ⟨(i, (vid, some a)), hmem, ?_⟩,
            List.mem_filterMap.2 ⟨(i, (vid, some a)), hmem, ?_⟩⟩ <;>
      simp [apply_acceleration_CNNIDM, apply_acceleration_CNNPI, hrl]

/-- Witness for C4: one rl and one human vehicle, policy actions 10 and 1,
fallback acceleration 1, `sim_step = 1`. -/
theorem apply_acceleration_blend_witness :
    (("rl_0", max ((2 : ℚ) + (0.5 * npClip 10 (-5) 3 + 0.5 * 1) * 1) 0)
      ∈ apply_acceleration_CNNIDM (fun _ => 2) (fun _ => 1) 1
          ["rl_0", "idm_0"] [some 10, some 1] ∧
     ("rl_0", max ((2 : ℚ) + (10 + 1) * 1) 0)
      ∈ apply_acceleration_CNNPI (fun _ => 2) (fun _ => 1) 1
          ["rl_0", "idm_0"] [some 10, some 1]) ∧
    ("idm_0", max ((2 : ℚ) + 1 * 1) 0)
      ∈ apply_acceleration_CNNIDM (fun _ => 2) (fun _ => 1) 1
          ["rl_0", "idm_0"] [some 10, some 1] := by
  refine ⟨(apply_acceleration_blend (fun _ => 2) (fun _ => 1) 1
      ["rl_0", "idm_0"] [some 10, some 1] 0 "rl_0" 10 rfl).1 (by decide), ?_⟩
  exact ((apply_acceleration_blend (fun _ => 2) (fun _ => 1) 1
      ["rl_0", "idm_0"] [some 10, some 1] 1 "idm_0" 1 rfl).2 (by decide)).1

/-- C10: every `slowDown` command issued by the IDM and PI variants carries
a non-negative target velocity of the form
`max(current speed + final acceleration * sim_step, 0)`, the final
acceleration being the (possibly blended) `acc[i]`. -/
theorem slow_down_target_nonneg
    (speed : String → ℚ) (defaultAcc : ℕ → ℚ) (simStep : ℚ)
    (veh_ids : List String) (acc : List (Option ℚ)) (vid : String) (v : ℚ) :
    ((vid, v) ∈ apply_acceleration_CNNIDM speed defaultAcc simStep veh_ids acc →
      0 ≤ v ∧ ∃ i a, (veh_ids.zip acc)[i]? = some (vid, some a) ∧
        v = max (speed vid +
          (if containsSub vid "rl" then 0.5 * npClip a (-5) 3 + 0.5 * defaultAcc i
           else a) * simStep) 0) ∧
    ((vid, v) ∈ apply_acceleration_CNNPI speed defaultAcc simStep veh_ids acc →
      0 ≤ v ∧ ∃ i a, (veh_ids.zip acc)[i]? = some (vid, some a) ∧
        v = max (speed vid +
          (if containsSub vid "rl" then a + defaultAcc i else a) * simStep) 0) := by
  constructor
  · intro hmem
    obtain ⟨x, hx, hfx⟩ := List.mem_filterMap.1 hmem
    obtain ⟨i, vid', a?⟩ := x
    cases a? with
    | none => exact absurd hfx (by simp [apply_acceleration_CNNIDM])
    | some a =>
        simp only [apply_acceleration_CNNIDM, Option.some.injEq, Prod.mk.injEq] at hfx
        obtain ⟨rfl, rfl⟩ := hfx
        exact ⟨le_max_right _ _,
          ⟨i, a, List.mk_mem_enum_iff_getElem?.1 hx, rfl⟩⟩
  · intro hmem
    obtain ⟨x, hx, hfx⟩ := List.mem_filterMap.1 hmem
    obtain ⟨i, vid', a?⟩ := x
    cases a? with
    | none => exact absurd hfx (by simp [apply_acceleration_CNNPI])
    | some a =>
        simp only [apply_acceleration_CNNPI, Option.some.injEq, Prod.mk.injEq] at hfx
        obtain ⟨rfl, rfl⟩ := hfx
        exact ⟨le_max_right _ _,
          ⟨i, a, List.mk_mem_enum_iff_getElem?.1 hx, rfl⟩⟩

/-- Witness for C10: the command from the C4 witness state has target
velocity `max(2 + 2 * 1, 0) = 4 ≥ 0`. -/
theorem slow_down_target_nonneg_witness :
    0 ≤ (max ((2 : ℚ) + (0.5 * npClip 10 (-5) 3 + 0.5 * 1) * 1) 0) := by
  refine ((slow_down_target_nonneg (fun _ => 2) (fun _ => 1) 1
      ["rl_0", "idm_0"] [some 10, some 1] "rl_0"
      (max ((2 : ℚ) + (0.5 * npClip 10 (-5) 3 + 0.5 * 1) * 1) 0)).1 ?_).1
  exact List.mem_filterMap.2 ⟨(0, ("rl_0", some 10)), by decide,
    by simp [apply_acceleration_CNNIDM,
      show containsSub "rl_0" "rl" = true from by decide]⟩

/-- The enqueue loop never duplicates an id. -/
theorem enqueueNew_nodup (rl_ids : List String) (queue rl_veh : List String)
    (h : queue.Nodup) : (enqueueNew rl_ids queue rl_veh).Nodup := by
  induction rl_ids generalizing queue with
  | nil => exact h
  | cons v rest ih =>
      show (List.foldl _ (if v ∈ queue ++ rl_veh then queue else queue ++ [v]) rest).Nodup
      by_cases hv : v ∈ queue ++ rl_veh
      · rw [if_pos hv]; exact ih queue h
      · rw [if_neg hv]
        refine ih _ (List.nodup_append.2 ⟨h, List.nodup_singleton v, ?_⟩)
        intro a ha hb
        rw [List.mem_singleton] at hb
        subst hb
        exact hv (List.mem_append.2 (Or.inl ha))

/-- Folding `erase` over absent elements computes a `List.diff`. -/
theorem foldl_erase_diff (rl_ids : List String) (iter : List String) :
    ∀ acc : List String,
      iter.foldl (fun q veh_id => if veh_id ∈ rl_ids then q else q.erase veh_id) acc =
        acc.diff (iter.filter fun v => decide (v ∉ rl_ids)) := by
  induction iter with
  | nil => intro acc; simp
  | cons v rest ih =>
      intro acc
      by_cases hv : v ∈ rl_ids
      · simpa [hv] using ih acc
      · simpa [hv] using ih (acc.erase v)

/-- For a duplicate-free list, removing the elements satisfying `p` leaves
exactly the elements failing `p`. -/
theorem nodup_diff_filter (p : String → Bool) (q : List String) (h : q.Nodup) :
    q.diff (q.filter p) = q.filter fun v => !(p v) := by
  induction q with
  | nil => simp
  | cons a q ih =>
      have ha : a ∉ q := (List.nodup_cons.1 h).1
      have hq : q.Nodup := (List.nodup_cons.1 h).2
      by_cases hp : p a = true
      · simp [hp, List.erase_cons_head, ih hq]
      · rw [Bool.not_eq_true] at hp
        have hnot : a ∉ q.filter p := fun hmem => ha (List.mem_of_mem_filter hmem)
        simp [hp, List.cons_diff_of_not_mem hnot, ih hq]

/-- The queue-cleanup loop of `additional_command` (iteration over a copy)
is an exact filter on a duplicate-free queue. -/
theorem removeAbsentQueue_eq_filter (rl_ids : List String) (queue : List String)
    (h : queue.Nodup) :
    removeAbsentQueue rl_ids queue = queue.filter fun v => decide (v ∈ rl_ids) := by
  rw [removeAbsentQueue, foldl_erase_diff]
  have := nodup_diff_filter (fun v => decide (v ∉ rl_ids)) queue h
  simpa [decide_not] using this

/-- The live-iteration cleanup loop on `rl_veh` behaves as a filter when the
list holds at most one id (always the case here, since `num_rl = 1`). -/
theorem removeAbsentLive_short (rl_ids : List String) (l : List String)
    (h : l.length ≤ 1) :
    removeAbsentLive rl_ids l = l.filter fun v => decide (v ∈ rl_ids) := by
  match l with
  | [] => rw [removeAbsentLive, removeAbsentLiveGo]; simp
  | [v] =>
      rw [removeAbsentLive, removeAbsentLiveGo]
      by_cases hv : v ∈ rl_ids
      · simp only [List.length_singleton, Nat.lt_irrefl, dif_pos Nat.one_pos,
          List.get, if_pos hv]
        rw [removeAbsentLiveGo]
        simp [hv]
      · simp only [List.length_singleton, dif_pos Nat.one_pos, List.get, if_neg hv]
        rw [List.erase_cons_head, removeAbsentLiveGo]
        simp [hv]
  | v :: w :: rest => simp at h

/-- The fill loop moves exactly the first `num_rl - |rl_veh|` queue entries,
in order, to the back of `rl_veh`. -/
theorem fillRlVeh_eq (num_rl : ℕ) (queue : List String) :
    ∀ rl_veh : List String,
      fillRlVeh num_rl queue rl_veh =
        (queue.drop (num_rl - rl_veh.length),
         rl_veh ++ queue.take (num_rl - rl_veh.length)) := by
  induction queue with
  | nil => intro rl_veh; simp [fillRlVeh]
  | cons a q ih =>
      intro rl_veh
      by_cases hlt : rl_veh.length < num_rl
      · rw [fillRlVeh, if_pos hlt, ih]
        obtain ⟨k, hk⟩ : ∃ k, num_rl - rl_veh.length = k + 1 :=
          ⟨num_rl - rl_veh.length - 1, by omega⟩
        have hk2 : num_rl - (rl_veh ++ [a]).length = k := by
          simp only [List.length_append, List.length_singleton]; omega
        rw [hk, hk2]
        simp [List.append_assoc]
      · rw [fillRlVeh, if_neg hlt]
        have h0 : num_rl - rl_veh.length = 0 := by omega
        simp [h0]

/-- C3: `WaveAttenuationMLPLocalEnv.additional_command` keeps the
controlled-vehicle bookkeeping consistent: `rl_veh` never exceeds `num_rl`
ids, afterwards every id in it is a present rl vehicle, an id is dropped
only if its vehicle left the network, and free slots are filled with the
oldest pending queue entries in FIFO order (the cleaned-up queue's prefix
moves to `rl_veh`, the remainder stays queued).  The hypotheses record the
state `__init__` sets up and `additional_command` maintains: `num_rl = 1`,
hence at most one controlled id, and a duplicate-free queue. -/
theorem additional_command_rl_veh_invariant (rl_ids : List String)
    (s : LocalEnvState) (hnum : s.num_rl = 1)
    (hlen : s.rl_veh.length ≤ s.num_rl) (hnodup : s.rl_queue.Nodup) :
    (additional_command_MLPLocal rl_ids s).rl_veh.length ≤ s.num_rl ∧
    (∀ v ∈ (additional_command_MLPLocal rl_ids s).rl_veh, v ∈ rl_ids) ∧
    (∀ v ∈ s.rl_veh, v ∈ rl_ids → v ∈ (additional_command_MLPLocal rl_ids s).rl_veh) ∧
    (additional_command_MLPLocal rl_ids s).rl_veh =
      (s.rl_veh.filter fun v => decide (v ∈ rl_ids)) ++
        (removeAbsentQueue rl_ids (enqueueNew rl_ids s.rl_queue s.rl_veh)).take
          (s.num_rl - ((s.rl_veh.filter fun v => decide (v ∈ rl_ids)).length)) ∧
    (additional_command_MLPLocal rl_ids s).rl_queue =
      (removeAbsentQueue rl_ids (enqueueNew rl_ids s.rl_queue s.rl_veh)).drop
        (s.num_rl - ((s.rl_veh.filter fun v => decide (v ∈ rl_ids)).length)) := by
  have hq1 : (enqueueNew rl_ids s.rl_queue s.rl_veh).Nodup :=
    enqueueNew_nodup rl_ids s.rl_queue s.rl_veh hnodup
  have hq2 : removeAbsentQueue rl_ids (enqueueNew rl_ids s.rl_queue s.rl_veh) =
      (enqueueNew rl_ids s.rl_queue s.rl_veh).filter fun v => decide (v ∈ rl_ids) :=
    removeAbsentQueue_eq_filter _ _ hq1
  have hveh2 : removeAbsentLive rl_ids s.rl_veh =
      s.rl_veh.filter fun v => decide (v ∈ rl_ids) :=
    removeAbsentLive_short _ _ (by omega)
  have hmain : additional_command_MLPLocal rl_ids s =
      { s with
        rl_queue := (removeAbsentQueue rl_ids (enqueueNew rl_ids s.rl_queue s.rl_veh)).drop
          (s.num_rl - ((s.rl_veh.filter fun v => decide (v ∈ rl_ids)).length)),
        rl_veh := (s.rl_veh.filter fun v => decide (v ∈ rl_ids)) ++
          (removeAbsentQueue rl_ids (enqueueNew rl_ids s.rl_queue s.rl_veh)).take
            (s.num_rl - ((s.rl_veh.filter fun v => decide (v ∈ rl_ids)).length)) } := by
    rw [additional_command_MLPLocal]
    rw [hveh2, fillRlVeh_eq]
  have hfillen : (s.rl_veh.filter fun v => decide (v ∈ rl_ids)).length ≤ s.rl_veh.length :=
    List.length_filter_le _ _
  refine ⟨?_, ?_, ?_, ?_, ?_⟩
  · rw [hmain]
    simp only [List.length_append]
    have htake := List.length_take_le
      (s.num_rl - ((s.rl_veh.filter fun v => decide (v ∈ rl_ids)).length))
      (removeAbsentQueue rl_ids (enqueueNew rl_ids s.rl_queue s.rl_veh))
    omega
  · intro v hv
    rw [hmain] at hv
    simp only [List.mem_append] at hv
    rcases hv with hv | hv
    · simpa using (List.mem_filter.1 hv).2
    · have hv2 := List.mem_of_mem_take hv
      rw [hq2] at hv2
      simpa using (List.mem_filter.1 hv2).2
  · intro v hv hid
    rw [hmain]
    simp only [List.mem_append]
    exact Or.inl (List.mem_filter.2 ⟨hv, by simpa using hid⟩)
  · rw [hmain]
  · rw [hmain]

/-- A `WaveAttenuationMLPLocalEnv` state in which the controlled vehicle
`rl_0` has left the network while `rl_1` waits in the queue. -/
def exLocal : LocalEnvState :=
  { num_rl := 1, rl_queue := ["rl_1"], rl_veh := ["rl_0"],
    leader := [], follower := [] }

/-- Witness for C3: after `rl_0` exits and `rl_1` is queued, the update
keeps at most one controlled vehicle and controls only present rl ids. -/
theorem additional_command_rl_veh_invariant_witness :
    (additional_command_MLPLocal ["rl_1"] exLocal).rl_veh.length ≤ exLocal.num_rl ∧
    ∀ v ∈ (additional_command_MLPLocal ["rl_1"] exLocal).rl_veh, v ∈ ["rl_1"] :=
  ⟨(additional_command_rl_veh_invariant ["rl_1"] exLocal rfl (by decide) (by decide)).1,
   (additional_command_rl_veh_invariant ["rl_1"] exLocal rfl (by decide) (by decide)).2.1⟩

end WaveAttenuation
